import Mathlib

/-!
# docker-app command front end: `deploy` and `image-add`

A shallow embedding of `cmd/docker-app/deploy.go` (`runDeploy`) and
`cmd/image-add.go` (`imageAddCmd.RunE`).

Both command handlers are straight-line delegation to external collaborators.
The embedding makes the collaborators parameters (a record of functions that
say what each call returns) and makes every handler return, next to its Go
result, the ordered trace of the collaborator calls it made together with the
arguments of each call.

* Go strings are modelled by Lean `String`; the only string operation of the
  source, `strings.SplitN(v, "=", 2)`, cuts at the one-byte separator `=`.
* Go `map[string]string` is modelled by an association list whose `set`
  overwrites, read through `get`.
* A Go `error` result is `Option (GoError E)`: `none` is `nil`.
-/

set_option autoImplicit false

/-! ## Go values -/

/-- Go `error` values. `Errorf msg` is the value built by `fmt.Errorf` inside the
command handlers themselves; `collaborator e` is an error value `e` handed back
by a collaborator, seen through the `error` interface. -/
inductive GoError (E : Type) where
  | Errorf (msg : String)
  | collaborator (e : E)
  deriving DecidableEq, Repr

/-- Go `map[string]string`, as an association list with at most one entry per key. -/
abbrev GoMap := List (String × String)

/-- Go `make(map[string]string)`. -/
def GoMap.make : GoMap := []

/-- Go `d[k] = v`: the entry for `k` is created or overwritten. -/
def GoMap.set (d : GoMap) (k v : String) : GoMap :=
  (k, v) :: d.filter (fun p => p.1 != k)

/-- Go `d[k]` with the comma-ok form: `none` when the key is absent. -/
def GoMap.get (d : GoMap) (k : String) : Option String :=
  List.lookup k d

/-- The keys present in the map. -/
def GoMap.keys (d : GoMap) : List String :=
  d.map Prod.fst

/-- Worker of `strings.SplitN` on the characters of the string: at most `n`
pieces, the last one being the unsplit remainder. -/
def strings.SplitN.go (sep : Char) : Nat → List Char → List (List Char)
  | 0, _ => []
  | 1, s => [s]
  | n + 2, s =>
    match s.span (fun c => c != sep) with
    | (a, []) => [a]
    | (a, _ :: rest) => a :: strings.SplitN.go sep (n + 1) rest

/-- Go `strings.SplitN(s, sep, n)` for a one-character separator and `n ≥ 0`:
`n = 0` gives no piece, otherwise `s` is cut at the first `n - 1` separators. -/
def strings.SplitN (s : String) (sep : Char) (n : Nat) : List String :=
  (strings.SplitN.go sep n s.data).map String.mk

/-! ## `image-add` -/

/-- The package-level flag variables of `cmd/image-add.go`. -/
structure imageAddFlags where
  imageAddComposeFiles : List String
  imageAddSettingsFile : List String
  imageAddEnv : List String
  deriving DecidableEq, Repr

/-- A call to the image-bundling collaborator, with its five arguments. -/
inductive ImageCall where
  | Add (appname : String) (services composeFiles settingsFiles : List String) (d : GoMap)
  deriving DecidableEq, Repr

/-- The `for _, v := range imageAddEnv` loop of `imageAddCmd.RunE`, started on
the map `d`: either the finished map or the error of the first bad token. -/
def imageAddCmd.RunE.loop {E : Type} : List String → GoMap → Except (GoError E) GoMap
  | [], d => .ok d
  | v :: rest, d =>
    let kv := strings.SplitN v '=' 2
    if kv.length ≠ 2 then
      .error (.Errorf ("Malformed env input: '" ++ v ++ "'"))
    else
      imageAddCmd.RunE.loop rest (d.set (kv.getD 0 "") (kv.getD 1 ""))

/-- The handler `imageAddCmd.RunE`. `Add` is the collaborator `image.Add`.
The result is `none` when the handler stops on the index expression `args[0]`
with an empty `args`, and otherwise the trace of collaborator calls with the
returned `error`. -/
def imageAddCmd.RunE {E : Type}
    (Add : String → List String → List String → List String → GoMap → Option E)
    (flags : imageAddFlags) (args : List String) :
    Option (List ImageCall × Option (GoError E)) :=
  match imageAddCmd.RunE.loop (E := E) flags.imageAddEnv GoMap.make with
  | .error err => some ([], some err)
  | .ok d =>
    match args with
    | [] => none
    | a :: rest =>
      some ([.Add a rest flags.imageAddComposeFiles flags.imageAddSettingsFile d],
        (Add a rest flags.imageAddComposeFiles flags.imageAddSettingsFile d).map
          GoError.collaborator)

/-- The text of a token before its first `=` (the whole token when it has none). -/
def tokenKey (v : String) : String :=
  String.mk (v.data.takeWhile (fun c => c != '='))

/-- The text of a token after its first `=` (empty when it has none). -/
def tokenValue (v : String) : String :=
  String.mk (v.data.dropWhile (fun c => c != '=')).tail

/-! ## `deploy` -/

/-- The flag values of the deploy command (`deployOptions`). -/
structure deployOptions where
  deployComposeFiles : List String
  deploySettingsFiles : List String
  deployEnv : List String
  deployOrchestrator : String
  deployKubeConfig : String
  deployNamespace : String
  deployStackName : String
  sendRegistryAuth : Bool
  deriving DecidableEq, Repr

/-- The field of `cliflags.CommonOptions` that `runDeploy` sets. -/
structure cliflags.CommonOptions where
  Orchestrator : String
  deriving DecidableEq, Repr

/-- The field of `cliflags.ClientOptions` that `runDeploy` sets. -/
structure cliflags.ClientOptions where
  Common : cliflags.CommonOptions
  deriving DecidableEq, Repr

/-- The field of `options.Deploy` that `runDeploy` sets. -/
structure options.Deploy where
  Namespace : String
  deriving DecidableEq, Repr

/-- The fields of `kubernetes.Options` that `runDeploy` sets. -/
structure kubernetes.Options where
  Namespace : String
  Config : String
  deriving DecidableEq, Repr

/-- What surrounds `runDeploy`: the process environment and the result of each
collaborator call. `E` are the collaborators' error values, `H` the cleanup
handles, `R` the rendered manifests, `C` the states of the shared
`*command.DockerCli`, `K` the Kubernetes-wrapped clients.

`parseSettings` and `AppNameFromDir` are helpers of this repository whose
bodies are not part of the two source files; they are taken as they come. -/
structure World (E H R C K : Type) where
  /-- The function `os.LookupEnv`. -/
  LookupEnv : String → Option String
  /-- The call `packager.Extract`: the package location and the cleanup handle, or an error. -/
  Extract : String → Except E (String × H)
  /-- The helper `parseSettings` of package `main`. -/
  parseSettings : List String → Except (GoError E) GoMap
  /-- The call `renderer.Render`. -/
  Render : String → List String → List String → GoMap → Except E R
  /-- The call `dockerCli.Initialize`: the client state it leaves and the `error` it returns. -/
  Initialize : C → cliflags.ClientOptions → C × Option E
  /-- The helper `internal.AppNameFromDir`. -/
  AppNameFromDir : String → String
  /-- The call `swarm.DeployCompose` (its context argument is `context.Background()`). -/
  DeployCompose : C → R → options.Deploy → Option E
  /-- The call `kubernetes.WrapCli`. -/
  WrapCli : C → kubernetes.Options → Except E K
  /-- The call `kubernetes.DeployStack`. -/
  DeployStack : K → options.Deploy → R → Option E

/-- One collaborator call made by `runDeploy`, with its arguments. `cleanup h`
is the invocation of the handle `h` that `packager.Extract` returned. -/
inductive Call (H R C K : Type) where
  | Extract (appname : String)
  | cleanup (h : H)
  | Render (appname : String) (composeFiles settingsFiles : List String) (d : GoMap)
  | Initialize (cli : C) (opts : cliflags.ClientOptions)
  | DeployCompose (cli : C) (rendered : R) (opts : options.Deploy)
  | WrapCli (cli : C) (opts : kubernetes.Options)
  | DeployStack (kubeCli : K) (opts : options.Deploy) (rendered : R)
  deriving DecidableEq, Repr

section deploy

variable {E H R C K : Type}

/-- Lines 64 to 102 of `runDeploy`: everything after `defer cleanup()`, on the
package location `appname` that `packager.Extract` returned. -/
def runDeploy.body (w : World E H R C K) (dockerCli : C) (appname : String)
    (opts : deployOptions) : List (Call H R C K) × Option (GoError E) :=
  let deployOrchestrator :=
    match w.LookupEnv "DOCKER_ORCHESTRATOR" with
    | some d => d
    | none => opts.deployOrchestrator
  if deployOrchestrator ≠ "swarm" ∧ deployOrchestrator ≠ "kubernetes" then
    ([], some (.Errorf "orchestrator must be either 'swarm' or 'kubernetes'"))
  else
    match w.parseSettings opts.deployEnv with
    | .error err => ([], some err)
    | .ok d =>
      match w.Render appname opts.deployComposeFiles opts.deploySettingsFiles d with
      | .error err =>
        ([.Render appname opts.deployComposeFiles opts.deploySettingsFiles d],
          some (.collaborator err))
      | .ok rendered =>
        let clientOpts : cliflags.ClientOptions := { Common := { Orchestrator := deployOrchestrator } }
        let dockerCli1 := (w.Initialize dockerCli clientOpts).1
        let stackName :=
          if opts.deployStackName = "" then w.AppNameFromDir appname else opts.deployStackName
        if deployOrchestrator = "swarm" then
          ([.Render appname opts.deployComposeFiles opts.deploySettingsFiles d,
            .Initialize dockerCli clientOpts,
            .DeployCompose dockerCli1 rendered { Namespace := stackName }],
            (w.DeployCompose dockerCli1 rendered { Namespace := stackName }).map .collaborator)
        else
          let kubeOpts : kubernetes.Options :=
            { Namespace := opts.deployNamespace, Config := opts.deployKubeConfig }
          match w.WrapCli dockerCli1 kubeOpts with
          | .error err =>
            ([.Render appname opts.deployComposeFiles opts.deploySettingsFiles d,
              .Initialize dockerCli clientOpts,
              .WrapCli dockerCli1 kubeOpts],
              some (.collaborator err))
          | .ok kubeCli =>
            ([.Render appname opts.deployComposeFiles opts.deploySettingsFiles d,
              .Initialize dockerCli clientOpts,
              .WrapCli dockerCli1 kubeOpts,
              .DeployStack kubeCli { Namespace := stackName } rendered],
              (w.DeployStack kubeCli { Namespace := stackName } rendered).map .collaborator)

/-- The function `runDeploy`: the trace of collaborator calls in the order they
are made, and the returned `error`. The deferred `cleanup()` runs after the
body has produced the return value. -/
def runDeploy (w : World E H R C K) (dockerCli : C) (appname : String)
    (opts : deployOptions) : List (Call H R C K) × Option (GoError E) :=
  match w.Extract appname with
  | .error err => ([.Extract appname], some (.collaborator err))
  | .ok (appname1, cleanup) =>
    let out := runDeploy.body w dockerCli appname1 opts
    (.Extract appname :: out.1 ++ [.cleanup cleanup], out.2)

end deploy

/-- Modelled from the spec: `parseSettings`, the helper of package `main` that
`runDeploy` calls and whose body is not in the source files. The spec gives it
the behaviour of the token loop of `image-add`: a map from the `KEY=VALUE`
tokens, and a failure echoing the token on the first token without `=`. -/
def parseSettings {E : Type} (env : List String) : Except (GoError E) GoMap :=
  imageAddCmd.RunE.loop env GoMap.make

/-- A collaborator call that comes after validation in `runDeploy`: rendering,
client initialisation, and the orchestrator-specific calls. -/
def Call.isDownstream {H R C K : Type} : Call H R C K → Bool
  | .Extract _ => false
  | .cleanup _ => false
  | _ => true

/-- The call is an invocation of a cleanup handle. -/
def Call.isCleanup {H R C K : Type} : Call H R C K → Bool
  | .cleanup _ => true
  | _ => false

/-- The call is `packager.Extract`. -/
def Call.isExtract {H R C K : Type} : Call H R C K → Bool
  | .Extract _ => true
  | _ => false

/-- The `options.Deploy.Namespace` of a stack-deploy call, `none` for other calls. -/
def Call.deployNamespace {H R C K : Type} : Call H R C K → Option String
  | .DeployCompose _ _ o => some o.Namespace
  | .DeployStack _ o _ => some o.Namespace
  | _ => none

/-- The name of the collaborator a call goes to. -/
def Call.name {H R C K : Type} : Call H R C K → String
  | .Extract _ => "packager.Extract"
  | .cleanup _ => "cleanup"
  | .Render _ _ _ _ => "renderer.Render"
  | .Initialize _ _ => "dockerCli.Initialize"
  | .DeployCompose _ _ _ => "swarm.DeployCompose"
  | .WrapCli _ _ => "kubernetes.WrapCli"
  | .DeployStack _ _ _ => "kubernetes.DeployStack"

/-! ## Concrete surroundings used to evaluate the handlers -/

/-- A world in which every collaborator succeeds. Packages are extracted to
`/tmp/<name>.dockerapp` with handle `7`, the manifest is the text `manifest`,
client states count the `Initialize` calls. -/
def okWorld (envOrchestrator : Option String) : World String Nat String Nat Nat where
  LookupEnv := fun k => if k = "DOCKER_ORCHESTRATOR" then envOrchestrator else none
  Extract := fun a => .ok ("/tmp/" ++ a ++ ".dockerapp", 7)
  parseSettings := parseSettings
  Render := fun _ _ _ _ => .ok "manifest"
  Initialize := fun c _ => (c + 1, none)
  AppNameFromDir := fun a => "dir:" ++ a
  DeployCompose := fun _ _ _ => none
  WrapCli := fun c _ => .ok (c + 100)
  DeployStack := fun _ _ _ => none

/-- The default flag values of `deployCmd`. -/
def defaultOptions : deployOptions where
  deployComposeFiles := []
  deploySettingsFiles := []
  deployEnv := []
  deployOrchestrator := "swarm"
  deployKubeConfig := ""
  deployNamespace := "default"
  deployStackName := ""
  sendRegistryAuth := false

/-- The map a list of tokens builds on top of `d` when each token is cut at its
first `=`. -/
def settingsOf (env : List String) (d : GoMap) : GoMap :=
  env.foldl (fun m v => m.set (tokenKey v) (tokenValue v)) d

/-- The orchestrator the spec describes: the environment variable, when set,
overrides the flag value. -/
def resolvedOrchestrator (envValue : Option String) (flag : String) : String :=
  envValue.getD flag

/-- The message of the orchestrator validation error of `runDeploy`. -/
def orchestratorError {E : Type} : GoError E :=
  .Errorf "orchestrator must be either 'swarm' or 'kubernetes'"

/-- The world `okWorld` with a `dockerCli.Initialize` that returns an error. -/
def initFailsWorld : World String Nat String Nat Nat :=
  { okWorld none with Initialize := fun c _ => (c + 1, some "initialize failed") }

/-! ## Lemmas on the Go values -/

theorem GoMap.get_set (d : GoMap) (k v k1 : String) :
    (d.set k v).get k1 = if k1 = k then some v else d.get k1 := by
  unfold GoMap.set GoMap.get
  by_cases h : k1 = k
  · subst h
    simp [List.lookup_cons]
  · have hb : (k1 == k) = false := by simpa using h
    simp only [List.lookup_cons, hb, if_neg h]
    induction d with
    | nil => simp
    | cons p t ih =>
      obtain ⟨a, b⟩ := p
      by_cases hp : a = k
      · subst hp
        simp [List.filter_cons, List.lookup_cons, hb, ih]
      · have hf : ((a, b).1 != k) = true := by simpa using hp
        rw [List.filter_cons, if_pos hf, List.lookup_cons, List.lookup_cons, ih]

theorem GoMap.mem_keys_set (d : GoMap) (k v k1 : String) :
    k1 ∈ (d.set k v).keys ↔ k1 = k ∨ k1 ∈ d.keys := by
  unfold GoMap.set GoMap.keys
  simp only [List.map_cons, List.mem_cons, List.mem_map, List.mem_filter, bne_iff_ne, ne_eq,
    Prod.exists, exists_and_right, exists_eq_right]
  constructor
  · rintro (h | ⟨⟨x, h⟩, -⟩)
    · exact Or.inl h
    · exact Or.inr ⟨x, h⟩
  · rintro (h | ⟨x, h⟩)
    · exact Or.inl h
    · by_cases hk : k1 = k
      · exact Or.inl hk
      · exact Or.inr ⟨⟨x, h⟩, hk⟩

theorem GoMap.nodup_keys_set (d : GoMap) (k v : String) (h : d.keys.Nodup) :
    (d.set k v).keys.Nodup := by
  unfold GoMap.set GoMap.keys at *
  rw [List.map_cons, List.nodup_cons]
  constructor
  · simp
  · exact (List.Sublist.map _ (List.filter_sublist d)).nodup h

theorem strings.SplitN_two_of_not_mem (s : String) (h : '=' ∉ s.data) :
    strings.SplitN s '=' 2 = [s] := by
  have hd : s.data.dropWhile (fun c => c != '=') = [] := by
    rw [List.dropWhile_eq_nil_iff]
    intro c hc
    have : c ≠ '=' := fun e => h (e ▸ hc)
    simpa using this
  have ht : s.data.takeWhile (fun c => c != '=') = s.data := by
    have := List.takeWhile_append_dropWhile (fun c => c != '=') s.data
    rw [hd, List.append_nil] at this
    exact this
  simp [strings.SplitN, strings.SplitN.go, List.span_eq_take_drop, hd, ht]

theorem strings.SplitN_two_of_mem (s : String) (h : '=' ∈ s.data) :
    strings.SplitN s '=' 2 = [tokenKey s, tokenValue s] := by
  have hne : s.data.dropWhile (fun c => c != '=') ≠ [] := by
    rw [Ne, List.dropWhile_eq_nil_iff]
    intro hall
    have := hall _ h
    simp at this
  obtain ⟨c, rest, hd⟩ := List.exists_cons_of_ne_nil hne
  simp [strings.SplitN, strings.SplitN.go, List.span_eq_take_drop, hd, tokenKey, tokenValue]

theorem strings.SplitN_two_length (s : String) :
    (strings.SplitN s '=' 2).length = 2 ↔ '=' ∈ s.data := by
  by_cases h : '=' ∈ s.data
  · simp [strings.SplitN_two_of_mem s h, h]
  · simp [strings.SplitN_two_of_not_mem s h, h]

theorem imageAddCmd.RunE.loop_ok {E : Type} (env : List String) (d : GoMap)
    (h : ∀ v ∈ env, '=' ∈ v.data) :
    imageAddCmd.RunE.loop (E := E) env d = .ok (settingsOf env d) := by
  induction env generalizing d with
  | nil => rfl
  | cons v rest ih =>
    have hv : '=' ∈ v.data := h v (List.mem_cons_self _ _)
    have hrest : ∀ u ∈ rest, '=' ∈ u.data := fun u hu => h u (List.mem_cons_of_mem _ hu)
    rw [imageAddCmd.RunE.loop]
    simp only [strings.SplitN_two_of_mem v hv, List.length_cons, List.length_nil]
    simp only [settingsOf, List.foldl_cons]
    exact ih _ hrest

theorem imageAddCmd.RunE.loop_error {E : Type} (env : List String) (d : GoMap) (v : String)
    (h : env.find? (fun t => !t.data.contains '=') = some v) :
    imageAddCmd.RunE.loop (E := E) env d =
      .error (.Errorf ("Malformed env input: '" ++ v ++ "'")) := by
  induction env generalizing d with
  | nil => simp at h
  | cons t rest ih =>
    rw [imageAddCmd.RunE.loop]
    by_cases ht : '=' ∈ t.data
    · have hc : (!t.data.contains '=') = false := by simp [ht]
      rw [List.find?_cons, hc] at h
      simp only [strings.SplitN_two_of_mem t ht, List.length_cons, List.length_nil]
      exact ih _ h
    · have hc : (!t.data.contains '=') = true := by simp [ht]
      rw [List.find?_cons, hc] at h
      cases h
      simp only [strings.SplitN_two_of_not_mem _ ht, List.length_cons, List.length_nil]
      simp

theorem settingsOf_get (env : List String) (d : GoMap) (k : String) :
    (settingsOf env d).get k =
      ((env.reverse.find? (fun t => tokenKey t == k)).map tokenValue).or (d.get k) := by
  induction env generalizing d with
  | nil => simp [settingsOf]
  | cons v rest ih =>
    have hstep : settingsOf (v :: rest) d = settingsOf rest (d.set (tokenKey v) (tokenValue v)) := rfl
    rw [hstep, ih, List.reverse_cons, List.find?_append, GoMap.get_set]
    cases hf : rest.reverse.find? (fun t => tokenKey t == k) with
    | some t => simp
    | none =>
      by_cases hk : k = tokenKey v
      · subst hk
        simp
      · have hb : (tokenKey v == k) = false := by simpa using fun e => hk e.symm
        simp [hk, hb]

theorem settingsOf_mem_keys (env : List String) (d : GoMap) (k : String) :
    k ∈ (settingsOf env d).keys ↔ (∃ v ∈ env, tokenKey v = k) ∨ k ∈ d.keys := by
  induction env generalizing d with
  | nil => simp [settingsOf]
  | cons v rest ih =>
    have hstep : settingsOf (v :: rest) d = settingsOf rest (d.set (tokenKey v) (tokenValue v)) := rfl
    rw [hstep, ih, GoMap.mem_keys_set]
    simp only [List.mem_cons, exists_eq_or_imp]
    constructor
    · rintro (h | h | h)
      · exact Or.inl (Or.inr h)
      · exact Or.inl (Or.inl h.symm)
      · exact Or.inr h
    · rintro ((h | h) | h)
      · exact Or.inr (Or.inl h.symm)
      · exact Or.inl h
      · exact Or.inr (Or.inr h)

theorem settingsOf_nodup_keys (env : List String) (d : GoMap) (h : d.keys.Nodup) :
    (settingsOf env d).keys.Nodup := by
  induction env generalizing d with
  | nil => simpa [settingsOf] using h
  | cons v rest ih => exact ih _ (GoMap.nodup_keys_set d _ _ h)

theorem tokenKey_append (k v : String) (hk : '=' ∉ k.data) : tokenKey (k ++ "=" ++ v) = k := by
  have hp : ∀ c ∈ k.data, (c != '=') = true := by
    intro c hc
    have : c ≠ '=' := fun e => hk (e ▸ hc)
    simpa using this
  have hd : (k ++ "=" ++ v).data = k.data ++ ('=' :: v.data) := by
    simp [String.data_append]
  unfold tokenKey
  rw [hd, List.takeWhile_append_of_pos hp]
  simp

theorem tokenValue_append (k v : String) (hk : '=' ∉ k.data) : tokenValue (k ++ "=" ++ v) = v := by
  have hp : ∀ c ∈ k.data, (c != '=') = true := by
    intro c hc
    have : c ≠ '=' := fun e => hk (e ▸ hc)
    simpa using this
  have hd : (k ++ "=" ++ v).data = k.data ++ ('=' :: v.data) := by
    simp [String.data_append]
  unfold tokenValue
  rw [hd, List.dropWhile_append_of_pos hp]
  simp

theorem mem_data_append_eq (k v : String) : '=' ∈ (k ++ "=" ++ v).data := by
  simp [String.data_append]

theorem imageAddCmd.RunE.loop_cons_token {E : Type} (k v : String) (hk : '=' ∉ k.data)
    (rest : List String) (d : GoMap) :
    imageAddCmd.RunE.loop (E := E) ((k ++ "=" ++ v) :: rest) d =
      imageAddCmd.RunE.loop rest (d.set k v) := by
  rw [imageAddCmd.RunE.loop]
  simp only [strings.SplitN_two_of_mem _ (mem_data_append_eq k v), tokenKey_append k v hk,
    tokenValue_append k v hk, List.length_cons, List.length_nil]
  simp

theorem exists_first_malformed (env : List String) (h : ∃ v ∈ env, '=' ∉ v.data) :
    ∃ v, env.find? (fun t => !t.data.contains '=') = some v := by
  have hs : (env.find? (fun t => !t.data.contains '=')).isSome := by
    rw [List.find?_isSome]
    obtain ⟨v, hv, hne⟩ := h
    exact ⟨v, hv, by simpa using hne⟩
  exact Option.isSome_iff_exists.mp hs

/-! ## The claims on `image-add` -/

/-- C1: when every `--env` token of image-add contains an `=`, the handler
calls `image.Add` once with a settings map `d` that has one entry per key,
whose keys are exactly the tokens' keys (the text before the first `=`), and
in which each key maps to the value of the last token carrying that key. -/
theorem imageAdd_settings_map {E : Type}
    (Add : String → List String → List String → List String → GoMap → Option E)
    (flags : imageAddFlags) (app : String) (services : List String)
    (hwf : ∀ v ∈ flags.imageAddEnv, '=' ∈ v.data) :
    ∃ d : GoMap,
      imageAddCmd.RunE Add flags (app :: services) =
        some ([.Add app services flags.imageAddComposeFiles flags.imageAddSettingsFile d],
          (Add app services flags.imageAddComposeFiles flags.imageAddSettingsFile d).map
            GoError.collaborator) ∧
      d.keys.Nodup ∧
      (∀ k, k ∈ d.keys ↔ ∃ v ∈ flags.imageAddEnv, tokenKey v = k) ∧
      (∀ k, d.get k =
        (flags.imageAddEnv.reverse.find? (fun t => tokenKey t == k)).map tokenValue) ∧
      (∀ pre t post, flags.imageAddEnv = pre ++ t :: post →
        (∀ u ∈ post, tokenKey u ≠ tokenKey t) → d.get (tokenKey t) = some (tokenValue t)) := by
  have hget : ∀ k, (settingsOf flags.imageAddEnv GoMap.make).get k =
      (flags.imageAddEnv.reverse.find? (fun t => tokenKey t == k)).map tokenValue := by
    intro k
    rw [settingsOf_get]
    simp [GoMap.make, GoMap.get]
  refine ⟨settingsOf flags.imageAddEnv GoMap.make, ?_, ?_, ?_, hget, ?_⟩
  · simp only [imageAddCmd.RunE, imageAddCmd.RunE.loop_ok _ _ hwf]
  · exact settingsOf_nodup_keys _ _ (by simp [GoMap.make, GoMap.keys])
  · intro k
    rw [settingsOf_mem_keys]
    simp [GoMap.make, GoMap.keys]
  · intro pre t post henv hpost
    rw [hget, henv]
    have hnone : post.reverse.find? (fun u => tokenKey u == tokenKey t) = none := by
      rw [List.find?_eq_none]
      intro u hu
      have := hpost u (List.mem_reverse.mp hu)
      simpa using this
    simp [List.reverse_append, List.find?_append, hnone]

/-- Witness for C1 on the tokens `A=1`, `B=2`, `A=3`. -/
theorem imageAdd_settings_map_witness :
    ∃ d : GoMap,
      imageAddCmd.RunE (fun _ _ _ _ _ => (none : Option Nat))
          ⟨["c.yml"], ["s.yml"], ["A=1", "B=2", "A=3"]⟩ ("app" :: ["web"]) =
        some ([.Add "app" ["web"] ["c.yml"] ["s.yml"] d], none) ∧
      d.get "A" = some "3" ∧ d.get "B" = some "2" ∧ d.get "C" = none := by
  obtain ⟨d, hrun, -, -, hget, -⟩ :=
    imageAdd_settings_map (fun _ _ _ _ _ => (none : Option Nat))
      ⟨["c.yml"], ["s.yml"], ["A=1", "B=2", "A=3"]⟩ "app" ["web"] (by decide)
  refine ⟨d, by simpa using hrun, ?_, ?_, ?_⟩ <;> rw [hget] <;> decide

/-- C9: the image-add token loop cuts each token at its first `=` only. For a
key `k` without `=` and any text `v`, the token `k=v` is accepted wherever it
stands and performs `d[k] = v`; alone it makes `image.Add` receive the map with
the single entry `k ↦ v`. In particular `A=b=c` maps `A` to `b=c`, `K=` maps
`K` to the empty string, and `=v` is accepted with the empty key. -/
theorem imageAdd_splits_at_first_equals {E : Type}
    (Add : String → List String → List String → List String → GoMap → Option E)
    (cf sf : List String) (app : String) (services : List String) :
    (∀ k v : String, '=' ∉ k.data →
      (∀ (rest : List String) (d : GoMap),
        imageAddCmd.RunE.loop (E := E) ((k ++ "=" ++ v) :: rest) d =
          imageAddCmd.RunE.loop rest (d.set k v)) ∧
      imageAddCmd.RunE Add ⟨cf, sf, [k ++ "=" ++ v]⟩ (app :: services) =
        some ([.Add app services cf sf [(k, v)]],
          (Add app services cf sf [(k, v)]).map GoError.collaborator) ∧
      GoMap.get [(k, v)] k = some v) ∧
    imageAddCmd.RunE Add ⟨cf, sf, ["A=b=c"]⟩ (app :: services) =
      some ([.Add app services cf sf [("A", "b=c")]],
        (Add app services cf sf [("A", "b=c")]).map GoError.collaborator) ∧
    imageAddCmd.RunE Add ⟨cf, sf, ["K="]⟩ (app :: services) =
      some ([.Add app services cf sf [("K", "")]],
        (Add app services cf sf [("K", "")]).map GoError.collaborator) ∧
    imageAddCmd.RunE Add ⟨cf, sf, ["=v"]⟩ (app :: services) =
      some ([.Add app services cf sf [("", "v")]],
        (Add app services cf sf [("", "v")]).map GoError.collaborator) := by
  have hgen : ∀ k v : String, '=' ∉ k.data →
      imageAddCmd.RunE Add ⟨cf, sf, [k ++ "=" ++ v]⟩ (app :: services) =
        some ([.Add app services cf sf [(k, v)]],
          (Add app services cf sf [(k, v)]).map GoError.collaborator) := by
    intro k v hk
    simp only [imageAddCmd.RunE, imageAddCmd.RunE.loop_cons_token k v hk]
    rfl
  refine ⟨fun k v hk => ⟨fun rest d => imageAddCmd.RunE.loop_cons_token k v hk rest d,
    hgen k v hk, by simp [GoMap.get, List.lookup_cons]⟩, ?_, ?_, ?_⟩
  · exact hgen "A" "b=c" (by decide)
  · exact hgen "K" "" (by decide)
  · exact hgen "" "v" (by decide)

/-- Witness for C9 on the key `A` and the text `b=c`. -/
theorem imageAdd_splits_at_first_equals_witness :
    '=' ∉ "A".data ∧
    imageAddCmd.RunE (fun _ _ _ _ _ => (none : Option Nat)) ⟨[], [], ["A" ++ "=" ++ "b=c"]⟩
      ("app" :: []) = some ([.Add "app" [] [] [] [("A", "b=c")]], none) :=
  ⟨by decide,
    ((imageAdd_splits_at_first_equals (fun _ _ _ _ _ => (none : Option Nat)) [] [] "app" []).1
      "A" "b=c" (by decide)).2.1⟩

/-! ## Lemmas on `runDeploy` -/

section deployLemmas

variable {E H R C K : Type}

theorem runDeploy.body_invalid (w : World E H R C K) (cli : C) (loc : String)
    (opts : deployOptions)
    (h1 : resolvedOrchestrator (w.LookupEnv "DOCKER_ORCHESTRATOR") opts.deployOrchestrator ≠ "swarm")
    (h2 : resolvedOrchestrator (w.LookupEnv "DOCKER_ORCHESTRATOR") opts.deployOrchestrator ≠
      "kubernetes") :
    runDeploy.body w cli loc opts = ([], some orchestratorError) := by
  unfold runDeploy.body
  unfold resolvedOrchestrator at h1 h2
  cases he : w.LookupEnv "DOCKER_ORCHESTRATOR" with
  | none =>
    rw [he] at h1 h2
    simp only [Option.getD_none] at h1 h2
    simp [h1, h2, orchestratorError]
  | some v =>
    rw [he] at h1 h2
    simp only [Option.getD_some] at h1 h2
    simp [h1, h2, orchestratorError]

theorem resolvedOrchestrator_eq_match (envValue : Option String) (flag : String) :
    (match envValue with
      | some d => d
      | none => flag) = resolvedOrchestrator envValue flag := by
  cases envValue <;> rfl

/-- Every way `runDeploy.body` can go, with the calls it makes and what it returns. -/
theorem runDeploy.body_cases (w : World E H R C K) (cli : C) (loc : String)
    (opts : deployOptions) :
    ∀ r stackName cli1,
      r = resolvedOrchestrator (w.LookupEnv "DOCKER_ORCHESTRATOR") opts.deployOrchestrator →
      stackName = (if opts.deployStackName = "" then w.AppNameFromDir loc
        else opts.deployStackName) →
      cli1 = (w.Initialize cli ⟨⟨r⟩⟩).1 →
      (r ≠ "swarm" ∧ r ≠ "kubernetes" ∧
        runDeploy.body w cli loc opts = ([], some orchestratorError)) ∨
      ((r = "swarm" ∨ r = "kubernetes") ∧ ∃ err,
        w.parseSettings opts.deployEnv = .error err ∧
        runDeploy.body w cli loc opts = ([], some err)) ∨
      ((r = "swarm" ∨ r = "kubernetes") ∧ ∃ d e,
        w.parseSettings opts.deployEnv = .ok d ∧
        w.Render loc opts.deployComposeFiles opts.deploySettingsFiles d = .error e ∧
        runDeploy.body w cli loc opts =
          ([.Render loc opts.deployComposeFiles opts.deploySettingsFiles d],
            some (.collaborator e))) ∨
      (r = "swarm" ∧ ∃ d rendered,
        w.parseSettings opts.deployEnv = .ok d ∧
        w.Render loc opts.deployComposeFiles opts.deploySettingsFiles d = .ok rendered ∧
        runDeploy.body w cli loc opts =
          ([.Render loc opts.deployComposeFiles opts.deploySettingsFiles d,
            .Initialize cli ⟨⟨r⟩⟩,
            .DeployCompose cli1 rendered ⟨stackName⟩],
            (w.DeployCompose cli1 rendered ⟨stackName⟩).map .collaborator)) ∨
      (r = "kubernetes" ∧ ∃ d rendered e,
        w.parseSettings opts.deployEnv = .ok d ∧
        w.Render loc opts.deployComposeFiles opts.deploySettingsFiles d = .ok rendered ∧
        w.WrapCli cli1 ⟨opts.deployNamespace, opts.deployKubeConfig⟩ = .error e ∧
        runDeploy.body w cli loc opts =
          ([.Render loc opts.deployComposeFiles opts.deploySettingsFiles d,
            .Initialize cli ⟨⟨r⟩⟩,
            .WrapCli cli1 ⟨opts.deployNamespace, opts.deployKubeConfig⟩],
            some (.collaborator e))) ∨
      (r = "kubernetes" ∧ ∃ d rendered kubeCli,
        w.parseSettings opts.deployEnv = .ok d ∧
        w.Render loc opts.deployComposeFiles opts.deploySettingsFiles d = .ok rendered ∧
        w.WrapCli cli1 ⟨opts.deployNamespace, opts.deployKubeConfig⟩ = .ok kubeCli ∧
        runDeploy.body w cli loc opts =
          ([.Render loc opts.deployComposeFiles opts.deploySettingsFiles d,
            .Initialize cli ⟨⟨r⟩⟩,
            .WrapCli cli1 ⟨opts.deployNamespace, opts.deployKubeConfig⟩,
            .DeployStack kubeCli ⟨stackName⟩ rendered],
            (w.DeployStack kubeCli ⟨stackName⟩ rendered).map .collaborator)) := by
  intro r stackName cli1 hr hs hc
  unfold runDeploy.body
  simp only [resolvedOrchestrator_eq_match, ← hr, ← hs]
  subst hc
  by_cases h1 : r = "swarm"
  · cases hp : w.parseSettings opts.deployEnv with
    | error err =>
      refine Or.inr (Or.inl ⟨Or.inl h1, err, rfl, ?_⟩)
      simp [h1]
    | ok d =>
      cases hrend : w.Render loc opts.deployComposeFiles opts.deploySettingsFiles d with
      | error e =>
        refine Or.inr (Or.inr (Or.inl ⟨Or.inl h1, d, e, rfl, hrend, ?_⟩))
        simp [h1, hrend]
      | ok rendered =>
        refine Or.inr (Or.inr (Or.inr (Or.inl ⟨h1, d, rendered, rfl, hrend, ?_⟩)))
        simp [h1, hrend]
  · by_cases h2 : r = "kubernetes"
    · cases hp : w.parseSettings opts.deployEnv with
      | error err =>
        refine Or.inr (Or.inl ⟨Or.inr h2, err, rfl, ?_⟩)
        simp [h2]
      | ok d =>
        cases hrend : w.Render loc opts.deployComposeFiles opts.deploySettingsFiles d with
        | error e =>
          refine Or.inr (Or.inr (Or.inl ⟨Or.inr h2, d, e, rfl, hrend, ?_⟩))
          simp [h2, hrend]
        | ok rendered =>
          cases hw : w.WrapCli (w.Initialize cli ⟨⟨r⟩⟩).1
              ⟨opts.deployNamespace, opts.deployKubeConfig⟩ with
          | error e =>
            refine Or.inr (Or.inr (Or.inr (Or.inr (Or.inl ⟨h2, d, rendered, e, rfl, hrend, rfl, ?_⟩))))
            have hv : ¬(r ≠ "swarm" ∧ r ≠ "kubernetes") := fun h => h.2 h2
            simp only [hrend, if_neg h1, if_neg hv]
          | ok kubeCli =>
            refine Or.inr (Or.inr (Or.inr (Or.inr (Or.inr ⟨h2, d, rendered, kubeCli, rfl, hrend, rfl, ?_⟩))))
            have hv : ¬(r ≠ "swarm" ∧ r ≠ "kubernetes") := fun h => h.2 h2
            simp only [hrend, if_neg h1, if_neg hv]
    · exact Or.inl ⟨h1, h2, by simp [h1, h2, orchestratorError]⟩

theorem runDeploy_of_extract_error (w : World E H R C K) (cli : C) (appname : String)
    (opts : deployOptions) (e : E) (hx : w.Extract appname = .error e) :
    runDeploy w cli appname opts = ([.Extract appname], some (.collaborator e)) := by
  simp [runDeploy, hx]

theorem runDeploy_of_extract_ok (w : World E H R C K) (cli : C) (appname : String)
    (opts : deployOptions) (loc : String) (h : H) (hx : w.Extract appname = .ok (loc, h)) :
    runDeploy w cli appname opts =
      (.Extract appname :: (runDeploy.body w cli loc opts).1 ++ [.cleanup h],
        (runDeploy.body w cli loc opts).2) := by
  simp [runDeploy, hx]

/-- The body makes only downstream calls: never `packager.Extract`, never a cleanup. -/
theorem runDeploy.body_calls (w : World E H R C K) (cli : C) (loc : String)
    (opts : deployOptions) :
    ∀ c ∈ (runDeploy.body w cli loc opts).1,
      c.isDownstream = true ∧ c.isCleanup = false ∧ c.isExtract = false := by
  rcases runDeploy.body_cases w cli loc opts _ _ _ rfl rfl rfl with
    ⟨-, -, hb⟩ | ⟨-, err, -, hb⟩ | ⟨-, d, e, -, -, hb⟩ | ⟨-, d, rendered, -, -, hb⟩ |
    ⟨-, d, rendered, e, -, -, -, hb⟩ | ⟨-, d, rendered, kubeCli, -, -, -, hb⟩ <;>
  · rw [hb]
    simp [Call.isDownstream, Call.isCleanup, Call.isExtract]

/-- With a failed validation the body makes no call at all and returns an error. -/
theorem runDeploy.body_validation_failure (w : World E H R C K) (cli : C) (loc : String)
    (opts : deployOptions)
    (hfail : (resolvedOrchestrator (w.LookupEnv "DOCKER_ORCHESTRATOR") opts.deployOrchestrator ≠
          "swarm" ∧
        resolvedOrchestrator (w.LookupEnv "DOCKER_ORCHESTRATOR") opts.deployOrchestrator ≠
          "kubernetes") ∨
      ∃ err, w.parseSettings opts.deployEnv = .error err) :
    (runDeploy.body w cli loc opts).1 = [] ∧ (runDeploy.body w cli loc opts).2 ≠ none := by
  rcases runDeploy.body_cases w cli loc opts _ _ _ rfl rfl rfl with
    ⟨-, -, hb⟩ | ⟨-, err, -, hb⟩ | ⟨hv, d, e, hp, -, -⟩ | ⟨hv, d, rendered, hp, -, -⟩ |
    ⟨hv, d, rendered, e, hp, -, -, -⟩ | ⟨hv, d, rendered, kubeCli, hp, -, -, -⟩
  · rw [hb]; simp [orchestratorError]
  · rw [hb]; simp
  all_goals
    rcases hfail with ⟨h1, h2⟩ | ⟨err, herr⟩
    · first
        | exact absurd hv h2
        | exact absurd hv h1
        | (rcases hv with hv | hv
           · exact absurd hv h1
           · exact absurd hv h2)
    · rw [hp] at herr
      cases herr

end deployLemmas

/-! ## The claims on `deploy` and on both handlers -/

/-- C2: image-add fails with the malformed-input error exactly when some
`--env` token has no `=`; the message then quotes the first such token
verbatim and `image.Add` is not called. In `runDeploy`, when `parseSettings`
fails no rendering, client initialisation or deploy call is made and an error
is returned; once extraction and the orchestrator check have passed, the
returned error is the one of `parseSettings` itself. -/
theorem malformed_token_fails {E H R C K : Type}
    (Add : String → List String → List String → List String → GoMap → Option E)
    (flags : imageAddFlags) (args : List String)
    (w : World E H R C K) (cli : C) (appname : String) (opts : deployOptions) :
    ((∃ calls msg, imageAddCmd.RunE Add flags args = some (calls, some (.Errorf msg))) ↔
      ∃ v ∈ flags.imageAddEnv, '=' ∉ v.data) ∧
    (∀ v, flags.imageAddEnv.find? (fun t => !t.data.contains '=') = some v →
      imageAddCmd.RunE Add flags args =
        some ([], some (.Errorf ("Malformed env input: '" ++ v ++ "'")))) ∧
    (∀ err, w.parseSettings opts.deployEnv = .error err →
      (∀ c ∈ (runDeploy w cli appname opts).1, c.isDownstream = false) ∧
      (runDeploy w cli appname opts).2 ≠ none ∧
      (∀ loc h, w.Extract appname = .ok (loc, h) →
        (resolvedOrchestrator (w.LookupEnv "DOCKER_ORCHESTRATOR") opts.deployOrchestrator =
            "swarm" ∨
          resolvedOrchestrator (w.LookupEnv "DOCKER_ORCHESTRATOR") opts.deployOrchestrator =
            "kubernetes") →
        runDeploy w cli appname opts = ([.Extract appname, .cleanup h], some err))) := by
  have hfirst : ∀ v, flags.imageAddEnv.find? (fun t => !t.data.contains '=') = some v →
      imageAddCmd.RunE Add flags args =
        some ([], some (.Errorf ("Malformed env input: '" ++ v ++ "'"))) := by
    intro v hv
    simp only [imageAddCmd.RunE, imageAddCmd.RunE.loop_error _ _ v hv]
  refine ⟨⟨?_, ?_⟩, hfirst, ?_⟩
  · rintro ⟨calls, msg, hrun⟩
    by_contra hno
    have hwf : ∀ v ∈ flags.imageAddEnv, '=' ∈ v.data := by
      intro v hv
      by_contra hne
      exact hno ⟨v, hv, hne⟩
    simp only [imageAddCmd.RunE, imageAddCmd.RunE.loop_ok _ _ hwf] at hrun
    cases args with
    | nil => simp at hrun
    | cons a rest =>
      simp only [Option.some.injEq, Prod.mk.injEq] at hrun
      cases hadd : Add a rest flags.imageAddComposeFiles flags.imageAddSettingsFile
          (settingsOf flags.imageAddEnv GoMap.make) <;> simp [hadd] at hrun
  · intro hex
    obtain ⟨v, hv⟩ := exists_first_malformed _ hex
    exact ⟨[], _, hfirst v hv⟩
  · intro err herr
    cases hx : w.Extract appname with
    | error e =>
      rw [runDeploy_of_extract_error w cli appname opts e hx]
      refine ⟨by simp [Call.isDownstream], by simp, ?_⟩
      intro loc h hcontra
      cases hcontra
    | ok p =>
      obtain ⟨loc, h⟩ := p
      rw [runDeploy_of_extract_ok w cli appname opts loc h hx]
      obtain ⟨hnil, hsome⟩ := runDeploy.body_validation_failure w cli loc opts (Or.inr ⟨err, herr⟩)
      refine ⟨by simp [hnil, Call.isDownstream], hsome, ?_⟩
      intro loc1 h1 heq hvalid
      cases heq
      rcases runDeploy.body_cases w cli loc opts _ _ _ rfl rfl rfl with
        ⟨n1, n2, -⟩ | ⟨-, err1, hp, hb⟩ | ⟨-, d, e, hp, -, -⟩ | ⟨-, d, rendered, hp, -, -⟩ |
        ⟨-, d, rendered, e, hp, -, -, -⟩ | ⟨-, d, rendered, kubeCli, hp, -, -, -⟩
      · rcases hvalid with hv | hv
        · exact absurd hv n1
        · exact absurd hv n2
      · rw [herr] at hp
        cases hp
        rw [hb]
        rfl
      all_goals
        rw [herr] at hp
        cases hp

/-- Witness for C2: the tokens `A=1`, `oops`, `B`, and a deploy whose
`parseSettings` rejects `oops`. -/
theorem malformed_token_fails_witness :
    imageAddCmd.RunE (fun _ _ _ _ _ => (none : Option String)) ⟨[], [], ["A=1", "oops", "B"]⟩
        ["app"] = some ([], some (.Errorf "Malformed env input: 'oops'")) ∧
    runDeploy (okWorld none) 0 "app" { defaultOptions with deployEnv := ["oops"] } =
      ([.Extract "app", .cleanup 7], some (.Errorf "Malformed env input: 'oops'")) :=
  ⟨(malformed_token_fails (fun _ _ _ _ _ => (none : Option String))
      ⟨[], [], ["A=1", "oops", "B"]⟩ ["app"] (okWorld none) 0 "app" defaultOptions).2.1
      "oops" (by decide),
    ((malformed_token_fails (fun _ _ _ _ _ => (none : Option String))
      ⟨[], [], []⟩ [] (okWorld none) 0 "app" { defaultOptions with deployEnv := ["oops"] }).2.2
      (.Errorf "Malformed env input: 'oops'") rfl).2.2
      "/tmp/app.dockerapp" 7 rfl (by decide)⟩

/-- C3: the orchestrator `runDeploy` works with is the value of
`DOCKER_ORCHESTRATOR` when that variable is set and the `--orchestrator` flag
value otherwise: it is the value every `Initialize` call carries, and when
extraction, settings and rendering succeed `Initialize` is called with it and
the matching branch is taken (flag `swarm` without the variable deploys on
Swarm, flag `swarm` with the variable set to `kubernetes` goes to Kubernetes).
For any other resolved value no renderer, `Initialize`, `WrapCli` or deploy
call is made and an error is returned, which after a successful extraction is
the orchestrator validation error. -/
theorem runDeploy_orchestrator_resolution {E H R C K : Type}
    (w : World E H R C K) (cli : C) (appname : String) (opts : deployOptions) :
    (∀ c o, Call.Initialize c o ∈ (runDeploy w cli appname opts).1 →
      o.Common.Orchestrator =
        resolvedOrchestrator (w.LookupEnv "DOCKER_ORCHESTRATOR") opts.deployOrchestrator) ∧
    (∀ loc h d rendered, w.Extract appname = .ok (loc, h) →
      w.parseSettings opts.deployEnv = .ok d →
      w.Render loc opts.deployComposeFiles opts.deploySettingsFiles d = .ok rendered →
      ((w.LookupEnv "DOCKER_ORCHESTRATOR" = none ∧ opts.deployOrchestrator = "swarm" →
          Call.Initialize cli ⟨⟨"swarm"⟩⟩ ∈ (runDeploy w cli appname opts).1 ∧
          ∃ c st, Call.DeployCompose c rendered st ∈ (runDeploy w cli appname opts).1) ∧
        (w.LookupEnv "DOCKER_ORCHESTRATOR" = some "swarm" →
          Call.Initialize cli ⟨⟨"swarm"⟩⟩ ∈ (runDeploy w cli appname opts).1 ∧
          ∃ c st, Call.DeployCompose c rendered st ∈ (runDeploy w cli appname opts).1) ∧
        (w.LookupEnv "DOCKER_ORCHESTRATOR" = none ∧ opts.deployOrchestrator = "kubernetes" →
          Call.Initialize cli ⟨⟨"kubernetes"⟩⟩ ∈ (runDeploy w cli appname opts).1 ∧
          ∃ c ko, Call.WrapCli c ko ∈ (runDeploy w cli appname opts).1) ∧
        (w.LookupEnv "DOCKER_ORCHESTRATOR" = some "kubernetes" →
          Call.Initialize cli ⟨⟨"kubernetes"⟩⟩ ∈ (runDeploy w cli appname opts).1 ∧
          ∃ c ko, Call.WrapCli c ko ∈ (runDeploy w cli appname opts).1))) ∧
    (resolvedOrchestrator (w.LookupEnv "DOCKER_ORCHESTRATOR") opts.deployOrchestrator ≠ "swarm" →
      resolvedOrchestrator (w.LookupEnv "DOCKER_ORCHESTRATOR") opts.deployOrchestrator ≠
        "kubernetes" →
      (∀ c ∈ (runDeploy w cli appname opts).1, c.isDownstream = false) ∧
      (runDeploy w cli appname opts).2 ≠ none ∧
      ∀ loc h, w.Extract appname = .ok (loc, h) →
        runDeploy w cli appname opts =
          ([.Extract appname, .cleanup h],
            some (.Errorf "orchestrator must be either 'swarm' or 'kubernetes'"))) := by
  refine ⟨?_, ?_, ?_⟩
  · intro c o hmem
    cases hx : w.Extract appname with
    | error e =>
      rw [runDeploy_of_extract_error w cli appname opts e hx] at hmem
      simp at hmem
    | ok p =>
      obtain ⟨loc, h⟩ := p
      rw [runDeploy_of_extract_ok w cli appname opts loc h hx] at hmem
      rcases runDeploy.body_cases w cli loc opts _ _ _ rfl rfl rfl with
        ⟨-, -, hb⟩ | ⟨-, err, -, hb⟩ | ⟨-, d, e, -, -, hb⟩ | ⟨-, d, rendered, -, -, hb⟩ |
        ⟨-, d, rendered, e, -, -, -, hb⟩ | ⟨-, d, rendered, kubeCli, -, -, -, hb⟩ <;>
      · rw [hb] at hmem
        simp at hmem
        try (obtain ⟨-, rfl⟩ := hmem; rfl)
  · intro loc h d rendered hx hp hrend
    have key : ∀ r, r = resolvedOrchestrator (w.LookupEnv "DOCKER_ORCHESTRATOR")
          opts.deployOrchestrator →
        (r = "swarm" → Call.Initialize cli ⟨⟨"swarm"⟩⟩ ∈ (runDeploy w cli appname opts).1 ∧
          ∃ c st, Call.DeployCompose c rendered st ∈ (runDeploy w cli appname opts).1) ∧
        (r = "kubernetes" →
          Call.Initialize cli ⟨⟨"kubernetes"⟩⟩ ∈ (runDeploy w cli appname opts).1 ∧
          ∃ c ko, Call.WrapCli c ko ∈ (runDeploy w cli appname opts).1) := by
      intro r hr
      rw [runDeploy_of_extract_ok w cli appname opts loc h hx]
      rcases runDeploy.body_cases w cli loc opts r _ _ hr rfl rfl with
        ⟨n1, n2, -⟩ | ⟨-, err, hp1, -⟩ | ⟨-, d1, e, hp1, hr1, -⟩ |
        ⟨hs, d1, rendered1, hp1, hr1, hb⟩ | ⟨hk, d1, rendered1, e, hp1, hr1, -, hb⟩ |
        ⟨hk, d1, rendered1, kubeCli, hp1, hr1, -, hb⟩
      · exact ⟨fun h1 => absurd h1 n1, fun h2 => absurd h2 n2⟩
      · rw [hp] at hp1
        cases hp1
      · rw [hp] at hp1
        cases hp1
        rw [hrend] at hr1
        cases hr1
      · rw [hp] at hp1
        cases hp1
        rw [hrend] at hr1
        cases hr1
        subst hs
        rw [hb]
        refine ⟨fun _ => ⟨by simp, (w.Initialize cli ⟨⟨"swarm"⟩⟩).1,
          ⟨if opts.deployStackName = "" then w.AppNameFromDir loc else opts.deployStackName⟩,
          ?_⟩, fun h2 => ?_⟩
        · simp
        · exact absurd h2 (by decide)
      · subst hk
        rw [hb]
        refine ⟨fun h1 => absurd h1 (by decide), fun _ => ⟨by simp,
          (w.Initialize cli ⟨⟨"kubernetes"⟩⟩).1, ⟨opts.deployNamespace, opts.deployKubeConfig⟩,
          ?_⟩⟩
        simp
      · subst hk
        rw [hb]
        refine ⟨fun h1 => absurd h1 (by decide), fun _ => ⟨by simp,
          (w.Initialize cli ⟨⟨"kubernetes"⟩⟩).1, ⟨opts.deployNamespace, opts.deployKubeConfig⟩,
          ?_⟩⟩
        simp
    refine ⟨?_, ?_, ?_, ?_⟩
    · rintro ⟨he, hf⟩
      exact (key _ rfl).1 (by simp [resolvedOrchestrator, he, hf])
    · intro he
      exact (key _ rfl).1 (by simp [resolvedOrchestrator, he])
    · rintro ⟨he, hf⟩
      exact (key _ rfl).2 (by simp [resolvedOrchestrator, he, hf])
    · intro he
      exact (key _ rfl).2 (by simp [resolvedOrchestrator, he])
  · intro h1 h2
    cases hx : w.Extract appname with
    | error e =>
      rw [runDeploy_of_extract_error w cli appname opts e hx]
      refine ⟨by simp [Call.isDownstream], by simp, ?_⟩
      intro loc h hcontra
      cases hcontra
    | ok p =>
      obtain ⟨loc, h⟩ := p
      rw [runDeploy_of_extract_ok w cli appname opts loc h hx,
        runDeploy.body_invalid w cli loc opts h1 h2]
      refine ⟨by simp [Call.isDownstream], by simp, ?_⟩
      intro loc1 h1 heq
      cases heq
      rfl

/-- Witness for C3: the variable set to `nomad` overrides the flag `swarm` and
is rejected. -/
theorem runDeploy_orchestrator_resolution_witness :
    runDeploy (okWorld (some "nomad")) 0 "app" defaultOptions =
      ([.Extract "app", .cleanup 7],
        some (.Errorf "orchestrator must be either 'swarm' or 'kubernetes'")) :=
  ((runDeploy_orchestrator_resolution (okWorld (some "nomad")) 0 "app" defaultOptions).2.2
    (by decide) (by decide)).2.2 "/tmp/app.dockerapp" 7 rfl

/-- C4, as stated, fails: with the flag value `nomad` the orchestrator check
rejects the input, yet `packager.Extract` has already been called (and its
cleanup handle run) when the validation error is returned. -/
theorem runDeploy_validates_after_extract :
    runDeploy (okWorld none) 0 "app" { defaultOptions with deployOrchestrator := "nomad" } =
      ([.Extract "app", .cleanup 7],
        some (.Errorf "orchestrator must be either 'swarm' or 'kubernetes'")) ∧
    ¬ (∀ c ∈ (runDeploy (okWorld none) 0 "app"
        { defaultOptions with deployOrchestrator := "nomad" }).1, c.isExtract = false) := by
  constructor
  · decide
  · decide

/-- C4, amended: when the resolved orchestrator is neither `swarm` nor
`kubernetes`, or `parseSettings` fails, `runDeploy` returns an error having
called nothing but `packager.Extract` and, when that succeeded, the cleanup
handle it returned: no renderer, `Initialize`, `WrapCli` or deploy call is made. -/
theorem runDeploy_validation_before_downstream {E H R C K : Type}
    (w : World E H R C K) (cli : C) (appname : String) (opts : deployOptions)
    (hfail : (resolvedOrchestrator (w.LookupEnv "DOCKER_ORCHESTRATOR") opts.deployOrchestrator ≠
          "swarm" ∧
        resolvedOrchestrator (w.LookupEnv "DOCKER_ORCHESTRATOR") opts.deployOrchestrator ≠
          "kubernetes") ∨
      ∃ err, w.parseSettings opts.deployEnv = .error err) :
    (∀ c ∈ (runDeploy w cli appname opts).1, c.isDownstream = false) ∧
    (runDeploy w cli appname opts).2 ≠ none ∧
    (∀ loc h, w.Extract appname = .ok (loc, h) →
      (runDeploy w cli appname opts).1 = [.Extract appname, .cleanup h]) ∧
    (∀ e, w.Extract appname = .error e →
      (runDeploy w cli appname opts).1 = [.Extract appname]) := by
  cases hx : w.Extract appname with
  | error e =>
    rw [runDeploy_of_extract_error w cli appname opts e hx]
    refine ⟨by simp [Call.isDownstream], by simp, ?_, ?_⟩
    · intro loc h hcontra
      cases hcontra
    · intro e1 _
      rfl
  | ok p =>
    obtain ⟨loc, h⟩ := p
    rw [runDeploy_of_extract_ok w cli appname opts loc h hx]
    obtain ⟨hnil, hsome⟩ := runDeploy.body_validation_failure w cli loc opts hfail
    refine ⟨by simp [hnil, Call.isDownstream], hsome, ?_, ?_⟩
    · intro loc1 h1 heq
      cases heq
      simp [hnil]
    · intro e hcontra
      cases hcontra

/-- Witness for amended C4: a deploy whose `parseSettings` rejects `oops`. -/
theorem runDeploy_validation_before_downstream_witness :
    (runDeploy (okWorld (some "kubernetes")) 0 "app"
      { defaultOptions with deployEnv := ["A=1", "oops"] }).1 =
        [.Extract "app", .cleanup 7] :=
  (runDeploy_validation_before_downstream (okWorld (some "kubernetes")) 0 "app"
    { defaultOptions with deployEnv := ["A=1", "oops"] }
    (Or.inr ⟨.Errorf "Malformed env input: 'oops'", rfl⟩)).2.2.1 "/tmp/app.dockerapp" 7 rfl

/-- C5: when `packager.Extract` succeeds, the cleanup handle it returned is
invoked exactly once, as the last call before `runDeploy` returns, whatever
the exit path; when `packager.Extract` fails, no cleanup handle is invoked. -/
theorem runDeploy_cleanup_exactly_once {E H R C K : Type}
    (w : World E H R C K) (cli : C) (appname : String) (opts : deployOptions) :
    (∀ loc h, w.Extract appname = .ok (loc, h) →
      (runDeploy w cli appname opts).1.filter Call.isCleanup = [.cleanup h] ∧
      (runDeploy w cli appname opts).1.getLast? = some (.cleanup h)) ∧
    (∀ e, w.Extract appname = .error e →
      (runDeploy w cli appname opts).1.filter Call.isCleanup = []) := by
  constructor
  · intro loc h hx
    rw [runDeploy_of_extract_ok w cli appname opts loc h hx]
    have hbody : (runDeploy.body w cli loc opts).1.filter Call.isCleanup = [] := by
      rw [List.filter_eq_nil_iff]
      intro c hc
      simp [(runDeploy.body_calls w cli loc opts c hc).2.1]
    constructor
    · simp [List.filter_cons, List.filter_append, hbody, Call.isCleanup]
    · show ((Call.Extract appname :: (runDeploy.body w cli loc opts).1) ++
          [Call.cleanup h]).getLast? = some (Call.cleanup h)
      exact List.getLast?_concat _
  · intro e hx
    rw [runDeploy_of_extract_error w cli appname opts e hx]
    simp [Call.isCleanup]

/-- Witness for C5: a run that stops on a malformed setting still runs the
handle `7` once. -/
theorem runDeploy_cleanup_exactly_once_witness :
    (runDeploy (okWorld none) 0 "app" { defaultOptions with deployEnv := ["oops"] }).1.filter
      Call.isCleanup = [.cleanup 7] :=
  ((runDeploy_cleanup_exactly_once (okWorld none) 0 "app"
    { defaultOptions with deployEnv := ["oops"] }).1 "/tmp/app.dockerapp" 7 rfl).1

/-- C6: on every successful run of `runDeploy` exactly one stack-deploy call
is made, and the `options.Deploy.Namespace` it receives is the `--name` flag
value when one is given (non-empty), whatever the package directory, and
otherwise `internal.AppNameFromDir` of the location `packager.Extract` returned. -/
theorem runDeploy_stack_name {E H R C K : Type}
    (w : World E H R C K) (cli : C) (appname : String) (opts : deployOptions)
    (hok : (runDeploy w cli appname opts).2 = none) :
    ∃ loc h, w.Extract appname = .ok (loc, h) ∧
      (opts.deployStackName ≠ "" →
        (runDeploy w cli appname opts).1.filterMap Call.deployNamespace =
          [opts.deployStackName]) ∧
      (opts.deployStackName = "" →
        (runDeploy w cli appname opts).1.filterMap Call.deployNamespace =
          [w.AppNameFromDir loc]) := by
  cases hx : w.Extract appname with
  | error e =>
    rw [runDeploy_of_extract_error w cli appname opts e hx] at hok
    simp at hok
  | ok p =>
    obtain ⟨loc, h⟩ := p
    refine ⟨loc, h, rfl, ?_⟩
    rw [runDeploy_of_extract_ok w cli appname opts loc h hx] at hok ⊢
    rcases runDeploy.body_cases w cli loc opts _ _ _ rfl rfl rfl with
      ⟨-, -, hb⟩ | ⟨-, err, -, hb⟩ | ⟨-, d, e, -, -, hb⟩ | ⟨-, d, rendered, -, -, hb⟩ |
      ⟨-, d, rendered, e, -, -, -, hb⟩ | ⟨-, d, rendered, kubeCli, -, -, -, hb⟩
    · rw [hb] at hok
      simp [orchestratorError] at hok
    · rw [hb] at hok
      simp at hok
    · rw [hb] at hok
      simp at hok
    · rw [hb]
      constructor
      · intro hne
        simp [Call.deployNamespace, hne]
      · intro heq
        simp [Call.deployNamespace, heq]
    · rw [hb] at hok
      simp at hok
    · rw [hb]
      constructor
      · intro hne
        simp [Call.deployNamespace, hne]
      · intro heq
        simp [Call.deployNamespace, heq]

/-- Witness for C6: `--name foo` on Kubernetes. -/
theorem runDeploy_stack_name_witness :
    (runDeploy (okWorld (some "kubernetes")) 0 "app"
      { defaultOptions with deployStackName := "foo" }).1.filterMap Call.deployNamespace =
        ["foo"] :=
  match runDeploy_stack_name (okWorld (some "kubernetes")) 0 "app"
    { defaultOptions with deployStackName := "foo" } (by decide) with
  | ⟨_, _, _, hname, _⟩ => hname (by decide)

/-- C7, at the failing input: `dockerCli.Initialize` returns an error, and
`runDeploy` goes on to `swarm.DeployCompose` and returns `nil`. -/
theorem runDeploy_drops_initialize_error :
    initFailsWorld.Initialize 0 ⟨⟨"swarm"⟩⟩ = (1, some "initialize failed") ∧
    runDeploy initFailsWorld 0 "app" defaultOptions =
      ([.Extract "app", .Render "/tmp/app.dockerapp" [] [] [], .Initialize 0 ⟨⟨"swarm"⟩⟩,
        .DeployCompose 1 "manifest" ⟨"dir:/tmp/app.dockerapp"⟩, .cleanup 7], none) := by
  constructor
  · rfl
  · decide

/-- C8: when extraction, validation and rendering succeed, the calls after
`renderer.Render` are `Initialize` with the resolved orchestrator, then on
`swarm` one `swarm.DeployCompose` with the rendered manifest and the stack
name, and on `kubernetes` `kubernetes.WrapCli` with the `--namespace` and
`--kubeconfig` values followed, only when it succeeds, by one
`kubernetes.DeployStack` with the same manifest and the stack name; the
cleanup handle closes the run. -/
theorem runDeploy_call_sequence {E H R C K : Type}
    (w : World E H R C K) (cli : C) (appname : String) (opts : deployOptions)
    (loc : String) (h : H) (d : GoMap) (rendered : R)
    (hx : w.Extract appname = .ok (loc, h))
    (hp : w.parseSettings opts.deployEnv = .ok d)
    (hrend : w.Render loc opts.deployComposeFiles opts.deploySettingsFiles d = .ok rendered) :
    (resolvedOrchestrator (w.LookupEnv "DOCKER_ORCHESTRATOR") opts.deployOrchestrator = "swarm" →
      runDeploy w cli appname opts =
        ([.Extract appname,
          .Render loc opts.deployComposeFiles opts.deploySettingsFiles d,
          .Initialize cli ⟨⟨"swarm"⟩⟩,
          .DeployCompose (w.Initialize cli ⟨⟨"swarm"⟩⟩).1 rendered
            ⟨if opts.deployStackName = "" then w.AppNameFromDir loc else opts.deployStackName⟩,
          .cleanup h],
          (w.DeployCompose (w.Initialize cli ⟨⟨"swarm"⟩⟩).1 rendered
            ⟨if opts.deployStackName = "" then w.AppNameFromDir loc
              else opts.deployStackName⟩).map .collaborator)) ∧
    (resolvedOrchestrator (w.LookupEnv "DOCKER_ORCHESTRATOR") opts.deployOrchestrator =
        "kubernetes" →
      (∀ kubeCli, w.WrapCli (w.Initialize cli ⟨⟨"kubernetes"⟩⟩).1
          ⟨opts.deployNamespace, opts.deployKubeConfig⟩ = .ok kubeCli →
        runDeploy w cli appname opts =
          ([.Extract appname,
            .Render loc opts.deployComposeFiles opts.deploySettingsFiles d,
            .Initialize cli ⟨⟨"kubernetes"⟩⟩,
            .WrapCli (w.Initialize cli ⟨⟨"kubernetes"⟩⟩).1
              ⟨opts.deployNamespace, opts.deployKubeConfig⟩,
            .DeployStack kubeCli
              ⟨if opts.deployStackName = "" then w.AppNameFromDir loc else opts.deployStackName⟩
              rendered,
            .cleanup h],
            (w.DeployStack kubeCli
              ⟨if opts.deployStackName = "" then w.AppNameFromDir loc else opts.deployStackName⟩
              rendered).map .collaborator)) ∧
      (∀ e, w.WrapCli (w.Initialize cli ⟨⟨"kubernetes"⟩⟩).1
          ⟨opts.deployNamespace, opts.deployKubeConfig⟩ = .error e →
        runDeploy w cli appname opts =
          ([.Extract appname,
            .Render loc opts.deployComposeFiles opts.deploySettingsFiles d,
            .Initialize cli ⟨⟨"kubernetes"⟩⟩,
            .WrapCli (w.Initialize cli ⟨⟨"kubernetes"⟩⟩).1
              ⟨opts.deployNamespace, opts.deployKubeConfig⟩,
            .cleanup h],
            some (.collaborator e)))) := by
  rw [runDeploy_of_extract_ok w cli appname opts loc h hx]
  rcases runDeploy.body_cases w cli loc opts _ _ _ rfl rfl rfl with
    ⟨n1, n2, -⟩ | ⟨-, err, hp1, -⟩ | ⟨-, d1, e, hp1, hr1, -⟩ |
    ⟨hs, d1, rendered1, hp1, hr1, hb⟩ | ⟨hk, d1, rendered1, e, hp1, hr1, hw, hb⟩ |
    ⟨hk, d1, rendered1, kubeCli, hp1, hr1, hw, hb⟩
  · refine ⟨fun hs => absurd hs n1, fun hk => absurd hk n2⟩
  · rw [hp] at hp1
    cases hp1
  · rw [hp] at hp1
    cases hp1
    rw [hrend] at hr1
    cases hr1
  · rw [hp] at hp1
    cases hp1
    rw [hrend] at hr1
    cases hr1
    rw [hs] at hb
    refine ⟨fun _ => ?_, fun hk => ?_⟩
    · rw [hb]
      rfl
    · rw [hs] at hk
      exact absurd hk (by decide)
  · rw [hp] at hp1
    cases hp1
    rw [hrend] at hr1
    cases hr1
    rw [hk] at hb hw
    refine ⟨fun hs => ?_, fun _ => ⟨fun kubeCli hwk => ?_, fun e1 hwe => ?_⟩⟩
    · rw [hk] at hs
      exact absurd hs (by decide)
    · rw [hw] at hwk
      cases hwk
    · rw [hw] at hwe
      cases hwe
      rw [hb]
      rfl
  · rw [hp] at hp1
    cases hp1
    rw [hrend] at hr1
    cases hr1
    rw [hk] at hb hw
    refine ⟨fun hs => ?_, fun _ => ⟨fun kubeCli1 hwk => ?_, fun e1 hwe => ?_⟩⟩
    · rw [hk] at hs
      exact absurd hs (by decide)
    · rw [hw] at hwk
      cases hwk
      rw [hb]
      rfl
    · rw [hw] at hwe
      cases hwe

/-- Witness for C8: a Swarm deploy with the default flags. -/
theorem runDeploy_call_sequence_witness :
    runDeploy (okWorld none) 0 "app" defaultOptions =
      ([.Extract "app", .Render "/tmp/app.dockerapp" [] [] [], .Initialize 0 ⟨⟨"swarm"⟩⟩,
        .DeployCompose 1 "manifest" ⟨"dir:/tmp/app.dockerapp"⟩, .cleanup 7], none) :=
  (runDeploy_call_sequence (okWorld none) 0 "app" defaultOptions "/tmp/app.dockerapp" 7 []
    "manifest" rfl rfl rfl).1 (by decide)

/-- C10: `runDeploy` does not read `sendRegistryAuth`. Two option structs that
agree on every other field give the same collaborator calls with the same
arguments and the same result, for the same app name, environment and
collaborators. -/
theorem runDeploy_ignores_registry_auth {E H R C K : Type}
    (w : World E H R C K) (cli : C) (appname : String) (o1 o2 : deployOptions)
    (hc : o1.deployComposeFiles = o2.deployComposeFiles)
    (hs : o1.deploySettingsFiles = o2.deploySettingsFiles)
    (he : o1.deployEnv = o2.deployEnv)
    (ho : o1.deployOrchestrator = o2.deployOrchestrator)
    (hk : o1.deployKubeConfig = o2.deployKubeConfig)
    (hn : o1.deployNamespace = o2.deployNamespace)
    (hd : o1.deployStackName = o2.deployStackName) :
    runDeploy w cli appname o1 = runDeploy w cli appname o2 := by
  cases o1
  cases o2
  simp only at hc hs he ho hk hn hd
  subst hc hs he ho hk hn hd
  rfl

/-- Witness for C10: the default flags with and without `--with-registry-auth`. -/
theorem runDeploy_ignores_registry_auth_witness :
    runDeploy (okWorld none) 0 "app" defaultOptions =
      runDeploy (okWorld none) 0 "app" { defaultOptions with sendRegistryAuth := true } :=
  runDeploy_ignores_registry_auth (okWorld none) 0 "app" defaultOptions
    { defaultOptions with sendRegistryAuth := true } rfl rfl rfl rfl rfl rfl rfl

/-! ## Further facts on error propagation -/

/-- A `renderer.Render` error is returned as it came, after the cleanup. -/
theorem runDeploy_render_error {E H R C K : Type}
    (w : World E H R C K) (cli : C) (appname : String) (opts : deployOptions)
    (loc : String) (h : H) (d : GoMap) (e : E)
    (hx : w.Extract appname = .ok (loc, h))
    (hv : resolvedOrchestrator (w.LookupEnv "DOCKER_ORCHESTRATOR") opts.deployOrchestrator =
        "swarm" ∨
      resolvedOrchestrator (w.LookupEnv "DOCKER_ORCHESTRATOR") opts.deployOrchestrator =
        "kubernetes")
    (hp : w.parseSettings opts.deployEnv = .ok d)
    (hrend : w.Render loc opts.deployComposeFiles opts.deploySettingsFiles d = .error e) :
    runDeploy w cli appname opts =
      ([.Extract appname, .Render loc opts.deployComposeFiles opts.deploySettingsFiles d,
        .cleanup h], some (.collaborator e)) := by
  rw [runDeploy_of_extract_ok w cli appname opts loc h hx]
  rcases runDeploy.body_cases w cli loc opts _ _ _ rfl rfl rfl with
    ⟨n1, n2, -⟩ | ⟨-, err, hp1, -⟩ | ⟨-, d1, e1, hp1, hr1, hb⟩ |
    ⟨-, d1, rendered1, hp1, hr1, -⟩ | ⟨-, d1, rendered1, e1, hp1, hr1, -, -⟩ |
    ⟨-, d1, rendered1, kubeCli, hp1, hr1, -, -⟩
  · rcases hv with hv | hv
    · exact absurd hv n1
    · exact absurd hv n2
  · rw [hp] at hp1
    cases hp1
  · rw [hp] at hp1
    cases hp1
    rw [hrend] at hr1
    cases hr1
    rw [hb]
    rfl
  all_goals
    rw [hp] at hp1
    cases hp1
    rw [hrend] at hr1
    cases hr1

/-- No collaborator is called twice in a run of `runDeploy`. -/
theorem runDeploy_no_repeated_call {E H R C K : Type}
    (w : World E H R C K) (cli : C) (appname : String) (opts : deployOptions) :
    ((runDeploy w cli appname opts).1.map Call.name).Nodup := by
  cases hx : w.Extract appname with
  | error e =>
    rw [runDeploy_of_extract_error w cli appname opts e hx]
    simp
  | ok p =>
    obtain ⟨loc, h⟩ := p
    rw [runDeploy_of_extract_ok w cli appname opts loc h hx]
    rcases runDeploy.body_cases w cli loc opts _ _ _ rfl rfl rfl with
      ⟨-, -, hb⟩ | ⟨-, err, -, hb⟩ | ⟨-, d, e, -, -, hb⟩ | ⟨-, d, rendered, -, -, hb⟩ |
      ⟨-, d, rendered, e, -, -, -, hb⟩ | ⟨-, d, rendered, kubeCli, -, -, -, hb⟩ <;>
    · rw [hb]
      simp only [List.cons_append, List.nil_append, List.map_cons, List.map_nil, Call.name]
      decide
